import Mathlib

/-!
Formal model of the csviper / npd_csviper compile-and-cache pipeline.

The definitions below are a shallow embedding, translated from the Python
sources of the repository:

* `src/csviper/column_normalizer.py` (`ColumnNormalizer`),
* `src/npd_csviper/metadata_extractor.py` (`CSVMetadataExtractor`),
* `src/npd_csviper/base_schema_generator.py` (`BaseSchemaGenerator`),
* `src/csviper/postgresql_schema_generator.py` (`PostgreSQLSchemaGenerator`),
* `src/npd_csviper/import_executor.py` (`ImportExecutor`),
* `src/npd_csviper/post_import_sql_generator.py` (`PostImportSQLGenerator`).

Python strings are modelled as Lean `String`s, with the handful of Python
string primitives the code uses (`strip`, `split`, `startswith`, slicing,
`%·d` formatting, `int(...)`) re-implemented below over `String.data` so that
they compute by kernel reduction.  Character classes (`[^a-zA-Z0-9]`,
`isdigit`) are the ASCII classes the regular expressions in the source use.
File-system and database effects are made explicit: functions take the
relevant on-disk / in-database state as arguments and return the action or
write they perform as data.
-/

namespace CsViper

/-! ### Python string primitives -/

/-- ASCII alphanumeric test: the character class `[a-zA-Z0-9]` used by
`re.sub(r'[^a-zA-Z0-9]', '_', ...)` in `ColumnNormalizer.safe_column_renamer`. -/
def charIsAsciiAlnum (c : Char) : Bool :=
  (48 ≤ c.toNat && c.toNat ≤ 57) || (65 ≤ c.toNat && c.toNat ≤ 90) ||
    (97 ≤ c.toNat && c.toNat ≤ 122)

/-- ASCII digit test, modelling `str.isdigit` on the ASCII inputs produced by
normalization. -/
def charIsAsciiDigit (c : Char) : Bool :=
  48 ≤ c.toNat && c.toNat ≤ 57

/-- ASCII whitespace test, modelling the characters `str.strip()` removes. -/
def charIsPySpace (c : Char) : Bool :=
  c = ' ' || c = '\t' || c = '\n' || c = '\r' || c = '\x0b' || c = '\x0c'

/-- Remove the characters satisfying `p` from both ends of a character list:
the core of Python `str.strip(...)`. -/
def stripEnds (p : Char → Bool) (l : List Char) : List Char :=
  ((l.dropWhile p).reverse.dropWhile p).reverse

/-- Python `str.strip()` (whitespace). -/
def pyStrip (s : String) : String :=
  ⟨stripEnds charIsPySpace s.data⟩

/-- Python `str.strip('_')`. -/
def pyStripUnderscores (s : String) : String :=
  ⟨stripEnds (fun c => c = '_') s.data⟩

/-- Python `s.startswith(p)`. -/
def pyStartsWith (s p : String) : Bool :=
  p.data.isPrefixOf s.data

/-- Python `s.endswith(p)`. -/
def pyEndsWith (s p : String) : Bool :=
  p.data.isSuffixOf s.data

/-- Everything after the first occurrence of `c` in `s`
(`s.split(c, 1)[1]` when `c` occurs in `s`; empty when it does not). -/
def pyAfterFirst (s : String) (c : Char) : String :=
  ⟨(s.data.dropWhile (fun x => x != c)).tail⟩

/-- Helper for `pySplitChar`: accumulates the current field (reversed). -/
def pySplitCharGo (c : Char) : List Char → List Char → List String
  | [], acc => [⟨acc.reverse⟩]
  | x :: rest, acc =>
    if x = c then (⟨acc.reverse⟩ : String) :: pySplitCharGo c rest []
    else pySplitCharGo c rest (x :: acc)

/-- Python `s.split(c)` for a single-character separator: splits on every
occurrence, keeping empty fields. -/
def pySplitChar (s : String) (c : Char) : List String :=
  pySplitCharGo c s.data []

/-- Python slice `l[:k]` on a character list, for a possibly negative bound
(`l[:k]` with `k < 0` drops `-k` characters from the end). -/
def pySliceTake (l : List Char) (k : Int) : List Char :=
  if 0 ≤ k then l.take k.toNat else l.take (l.length - (-k).toNat)

/-- Decimal digit to character. -/
def digitToChar (d : Nat) : Char :=
  match d with
  | 0 => '0' | 1 => '1' | 2 => '2' | 3 => '3' | 4 => '4'
  | 5 => '5' | 6 => '6' | 7 => '7' | 8 => '8' | _ => '9'

/-- Character to decimal digit value. -/
def charDigitVal (c : Char) : Nat :=
  c.toNat - 48

/-- Little-endian decimal digits of a positive number, with explicit fuel so
that the definition is structural (the fuel never runs out for `n ≤ fuel`,
see `digitsRevGo_val`). -/
def digitsRevGo : Nat → Nat → List Char
  | _, 0 => []
  | 0, _ + 1 => []
  | fuel + 1, n + 1 => digitToChar ((n + 1) % 10) :: digitsRevGo fuel ((n + 1) / 10)

/-- Decimal digits of `n`, most significant first: the digits of Python
`str(n)` / `repr(n)` for a non-negative integer. -/
def natDigits (n : Nat) : List Char :=
  if n = 0 then ['0'] else (digitsRevGo n n).reverse

/-- Python `str(n)` for a non-negative integer. -/
def natStr (n : Nat) : String :=
  ⟨natDigits n⟩

/-- Value of a little-endian digit list (used to prove `natDigits` injective). -/
def digitsVal : List Char → Nat
  | [] => 0
  | c :: r => charDigitVal c + 10 * digitsVal r

/-- Python `f"{n:03d}"` for a non-negative integer: zero-pad to width 3. -/
def pad3Digits (n : Nat) : List Char :=
  let s := natDigits n
  if s.length < 3 then List.replicate (3 - s.length) '0' ++ s else s

/-! ### Column Normalizer (`src/csviper/column_normalizer.py`) -/

/-- Collapse runs of consecutive underscores to a single one:
`re.sub(r'_+', '_', ...)`. -/
def collapseUnderscores : List Char → List Char
  | [] => []
  | [c] => [c]
  | a :: b :: rest =>
    if a = '_' && b = '_' then collapseUnderscores (b :: rest)
    else a :: collapseUnderscores (b :: rest)

/-- Replace every character outside `[a-zA-Z0-9]` by `_`:
`re.sub(r'[^a-zA-Z0-9]', '_', ...)`. -/
def replaceNonAlnum (l : List Char) : List Char :=
  l.map (fun c => if charIsAsciiAlnum c then c else '_')

/-- The `if not normalized: normalized = "unnamed_column"` default. -/
def defaultIfEmpty (l : List Char) : List Char :=
  if l = [] then "unnamed_column".data else l

/-- The leading-digit guard: `if normalized[0].isdigit(): '_' + normalized`. -/
def guardLeadingDigit (l : List Char) : List Char :=
  if charIsAsciiDigit (l.headD ' ') then '_' :: l else l

/-- Body of `safe_column_renamer` for a non-empty input: replace, collapse,
strip, default, guard, truncate to 60. -/
def renamerCore (l : List Char) : List Char :=
  (guardLeadingDigit (defaultIfEmpty
    (stripEnds (fun c => c = '_') (collapseUnderscores (replaceNonAlnum l))))).take 60

/-- `ColumnNormalizer.safe_column_renamer`. -/
def safe_column_renamer (column_name : String) : String :=
  if column_name.data = [] then "_empty_column"
  else ⟨renamerCore column_name.data⟩

/-- The numbered-duplicate candidate built in the body of the `while True`
loop of `rename_column_list`: `suffix = f"_{counter:03d}"`, truncating the
base to make room when the combined length would exceed 60. -/
def numberedCandidate (base : String) (counter : Nat) : String :=
  let sfx := '_' :: pad3Digits counter
  if 60 < base.data.length + sfx.length then
    ⟨pySliceTake base.data (60 - (sfx.length : Int)) ++ sfx⟩
  else
    ⟨base.data ++ sfx⟩

/-- The `while True` search of `rename_column_list`, made total with explicit
fuel: try counters `c, c+1, ...` until the candidate is not yet used.
`findFresh_spec` below shows the fuel supplied by `findFreshNumbered` always
suffices, so this computes exactly what the unbounded Python loop computes. -/
def findFreshGo (used : List String) (base : String) : Nat → Nat → String
  | 0, c => numberedCandidate base c
  | fuel + 1, c =>
    let cand := numberedCandidate base c
    if cand ∈ used then findFreshGo used base fuel (c + 1) else cand

/-- First numbered candidate (counter starting at 2) not yet in `used`. -/
def findFreshNumbered (used : List String) (base : String) : String :=
  findFreshGo used base (10 ^ (used.length + 4)) 2

/-- The per-column choice of `rename_column_list`: keep the base normalized
name on its first occurrence, search for a fresh numbered variant when it is
already taken. -/
def chooseName (used : List String) (name : String) : String :=
  if safe_column_renamer name ∈ used then
    findFreshNumbered used (safe_column_renamer name)
  else safe_column_renamer name

/-- Main loop of `ColumnNormalizer.rename_column_list`, threading the
`used_normalized_names` set (modelled as a list, membership only). -/
def renameGo (used : List String) : List String → List String
  | [] => []
  | name :: rest =>
    chooseName used name :: renameGo (chooseName used name :: used) rest

/-- `ColumnNormalizer.rename_column_list`. -/
def rename_column_list (column_names : List String) : List String :=
  renameGo [] column_names

/-! ### Python dictionaries

The metadata code builds several `dict`s keyed by strings.  They are modelled
as association lists with Python `dict` assignment semantics: assigning to an
existing key updates its value in place (keeping its insertion position),
assigning to a new key appends it. -/

/-- Python `d[k] = v`. -/
def pyDictInsert {β : Type} (d : List (String × β)) (k : String) (v : β) :
    List (String × β) :=
  if d.any (fun e => e.1 == k) then
    d.map (fun e => if e.1 == k then (k, v) else e)
  else
    d ++ [(k, v)]

/-- Python `d.get(k)` / `d[k]` (the latter raises `KeyError` on `none`). -/
def pyDictGet {β : Type} (d : List (String × β)) (k : String) : Option β :=
  (d.find? (fun e => e.1 == k)).map Prod.snd

/-- Python `','.join(...)`. -/
def joinWith (sep : String) : List String → String
  | [] => ""
  | [s] => s
  | s :: rest => s ++ sep ++ joinWith sep rest

/-- Python `str.lower()` (ASCII). -/
def lowerStr (s : String) : String :=
  ⟨s.data.map Char.toLower⟩

/-! ### Metadata Extractor (`src/npd_csviper/metadata_extractor.py`) -/

/-- The string hashed into `column_headers_hash`:
`','.join([col.lower() for col in original_columns])`.  The md5 hex digest
itself is threaded through the development as an arbitrary function
`md5 : String → String`; every cache decision in the source only compares
digests of strings produced by this same expression. -/
def headersHashInput (original_columns : List String) : String :=
  joinWith "," (original_columns.map lowerStr)

/-- Error raised by `_analyze_column_widths` for an inconsistent row: carries
the 1-based row number (the header is row 1) and the two field counts that
appear in the `CSVValidationError` message
(`Expected {expected} columns, found {found}`). -/
structure RowCountErr where
  row_number : Nat
  expected : Nat
  found : Nat
deriving DecidableEq, Repr

/-- The width map `{orig_col: 0 for orig_col in original_columns}` that
`_analyze_column_widths` starts from (duplicate original names collapse to a
single key, as in a Python dict comprehension). -/
def initWidths (original_columns : List String) : List (String × Nat) :=
  original_columns.foldl (fun d c => pyDictInsert d c 0) []

/-- One data row's update of the width map:
`max_lengths[original_col] = max(max_lengths[original_col], len(str(value)))`
for each position (the row's length equals the header's when this runs). -/
def updateWidths (original_columns : List String) (row : List String)
    (d : List (String × Nat)) : List (String × Nat) :=
  (original_columns.zip row).foldl
    (fun d p => pyDictInsert d p.1 (max ((pyDictGet d p.1).getD 0) p.2.length)) d

/-- Row scan of `_analyze_column_widths`: `row_number` starts at 1 for the
header and is incremented before each data row is checked; the first row whose
field count differs from the header's aborts the scan. -/
def scanRows (expected : Nat) (original_columns : List String) :
    Nat → List (List String) → List (String × Nat) →
      Except RowCountErr (List (String × Nat))
  | _, [], acc => .ok acc
  | row_number, row :: rest, acc =>
    let rn := row_number + 1
    if row.length ≠ expected then .error ⟨rn, expected, row.length⟩
    else scanRows expected original_columns rn rest (updateWidths original_columns row acc)

/-- `CSVMetadataExtractor._analyze_column_widths`, for the already-parsed data
rows of the file (the header row has been consumed).  On the first
inconsistent row the source raises `CSVValidationError(..., row_number)`; the
generic `except Exception` wrapper at the end of the function re-wraps it in
another `CSVValidationError` carrying the same row number and a message that
embeds the original, so the reported numbers are those of the `RowCountErr`. -/
def analyze_column_widths (original_columns : List String)
    (rows : List (List String)) : Except RowCountErr (List (String × Nat)) :=
  scanRows original_columns.length original_columns 1 rows (initWidths original_columns)

/-- The position-disambiguated `column_mapping` built in `fromFileToMetadata`:
`key = f"{orig} (column {i+1})" if original_columns.count(orig) > 1 else orig`. -/
def buildColumnMapping (originals normalized : List String) : List (String × String) :=
  (originals.zip normalized).enum.foldl
    (fun d e =>
      let key :=
        if 1 < originals.count e.2.1 then
          e.2.1 ++ " (column " ++ natStr (e.1 + 1) ++ ")"
        else e.2.1
      pyDictInsert d key e.2.2)
    []

/-- The Metadata Document (`<base>.metadata.json`).  The two fields the cache
logic reads defensively (`.get('allow_recompile_to_overwrite', True)` and the
`'column_headers_hash' in ...` membership test) are `Option`s, so hand-edited
documents lacking them are representable.  The presentation-only fields
`encoding_confidence` and `encoding_notes` are omitted. -/
structure Metadata where
  allow_recompile_to_overwrite : Option Bool
  filename : String
  filename_without_extension : String
  file_glob_pattern : String
  recursive_search : Bool
  full_path : String
  file_size_bytes : Nat
  delimiter : String
  quote_character : String
  encoding : String
  original_column_names : List String
  normalized_column_names : List String
  column_name_mapping : List (String × String)
  max_column_lengths : List (String × Nat)
  total_columns : Nat
  column_headers_hash : Option String
deriving DecidableEq, Repr

/-- A CSV source file together with the detection results
(`_detect_csv_format`, `_get_best_encoding`) and the parsed header and data
rows.  Detection itself is I/O over raw bytes and is taken as given. -/
structure CsvFile where
  path : String
  filename : String
  filename_without_extension : String
  file_size_bytes : Nat
  delimiter : String
  quote_character : String
  encoding : String
  header : List String
  rows : List (List String)

/-- The duplicate scan of `_validate_column_mapping_uniqueness`: walk the
mapping's values with a `seen` set; any repeat makes the function raise
`ValueError`. -/
def hasDupGo : List String → List String → Bool
  | [], _ => false
  | v :: rest, seen => if v ∈ seen then true else hasDupGo rest (v :: seen)

/-- `CSVMetadataExtractor._validate_column_mapping_uniqueness`: raises
(`.error`) iff the mapping's normalized values contain a duplicate. -/
def validate_column_mapping_uniqueness (m : Metadata) : Except String Unit :=
  if hasDupGo (m.column_name_mapping.map Prod.snd) [] then
    .error "Duplicate normalized column names found in column_name_mapping"
  else .ok ()

/-- Regeneration path of `fromFileToMetadata` (everything after the cache
check): normalize the header, build the mapping, scan the rows for widths,
hash the lower-cased header, and assemble the document.
`file_glob_pattern` is `_generate_file_glob_pattern(filename) = filename` and
`allow_recompile_to_overwrite` is written as `True`. -/
def generateMetadata (md5 : String → String) (csv : CsvFile) :
    Except RowCountErr Metadata :=
  let normalized := rename_column_list csv.header
  let mapping := buildColumnMapping csv.header normalized
  match analyze_column_widths csv.header csv.rows with
  | .error e => .error e
  | .ok widths =>
    .ok {
      allow_recompile_to_overwrite := some true
      filename := csv.filename
      filename_without_extension := csv.filename_without_extension
      file_glob_pattern := csv.filename
      recursive_search := true
      full_path := csv.path
      file_size_bytes := csv.file_size_bytes
      delimiter := csv.delimiter
      quote_character := csv.quote_character
      encoding := csv.encoding
      original_column_names := csv.header
      normalized_column_names := normalized
      column_name_mapping := mapping
      max_column_lengths := widths
      total_columns := csv.header.length
      column_headers_hash := some (md5 (headersHashInput csv.header))
    }

instance {ε α : Type} [DecidableEq ε] [DecidableEq α] :
    DecidableEq (Except ε α) :=
  fun x y =>
    match x, y with
    | .error e, .error e' =>
      if h : e = e' then .isTrue (by rw [h]) else .isFalse (by simp [h])
    | .ok a, .ok a' =>
      if h : a = a' then .isTrue (by rw [h]) else .isFalse (by simp [h])
    | .error _, .ok _ => .isFalse (by simp)
    | .ok _, .error _ => .isFalse (by simp)

/-- What `json.load` on the existing `<base>.metadata.json` yields: a parsed
document, or a `json.JSONDecodeError` (malformed/hand-edited JSON). -/
inductive StoredDoc where
  | parseError (msg : String)
  | parsed (m : Metadata)
deriving DecidableEq

/-- Result of `_get_cached_metadata`: the metadata to reuse (or `none` to
proceed with generation), plus whether the dark-red
"asking to trample, but the metadata file says no" warning was emitted. -/
structure CacheCheck where
  returned : Option Metadata
  trample_warning : Bool
deriving DecidableEq

/-- `CSVMetadataExtractor._get_cached_metadata`.  `disk` is the state of the
metadata JSON file (`none`: absent).  `liveHeader` is the header row read back
from the CSV by `_detect_csv_format` + `_extract_column_names` (the same file
the caller passed).  The `except (json.JSONDecodeError, KeyError, ValueError)`
handler maps both a parse failure and the `ValueError` of
`_validate_column_mapping_uniqueness` to `none` (regenerate). -/
def get_cached_metadata (md5 : String → String) (disk : Option StoredDoc)
    (liveHeader : List String) (csv_file_path : String)
    (overwrite_previous : Bool) : CacheCheck :=
  match disk with
  | none => ⟨none, false⟩
  | some (.parseError _) => ⟨none, false⟩
  | some (.parsed m) =>
    if (m.allow_recompile_to_overwrite.getD true) = false then
      if overwrite_previous then ⟨some m, true⟩ else ⟨some m, false⟩
    else if overwrite_previous then ⟨none, false⟩
    else
      match m.column_headers_hash with
      | none => ⟨none, false⟩
      | some h =>
        let current := md5 (headersHashInput liveHeader)
        if h = current then
          let m1 := { m with full_path := csv_file_path }
          match validate_column_mapping_uniqueness m1 with
          | .ok _ => ⟨some m1, false⟩
          | .error _ => ⟨none, false⟩
        else ⟨none, false⟩

/-- Observable outcome of one `fromFileToMetadata` call with an output
directory: the returned document (or the validation error that aborted the
scan), the document written to `<base>.metadata.json` by `_save_metadata_json`
(`none`: the file was not touched), and whether the trample warning fired. -/
structure ExtractOutcome where
  result : Except RowCountErr Metadata
  written : Option Metadata
  trample_warning : Bool
deriving DecidableEq

/-- `CSVMetadataExtractor.fromFileToMetadata` for an existing, readable CSV
and a caller-supplied output directory: consult `_get_cached_metadata`; a
returned document is passed through untouched (a parsed document is non-empty,
hence truthy); otherwise regenerate and save. -/
def fromFileToMetadata (md5 : String → String) (csv : CsvFile)
    (disk : Option StoredDoc) (overwrite_previous : Bool) : ExtractOutcome :=
  let cache := get_cached_metadata md5 disk csv.header csv.path overwrite_previous
  match cache.returned with
  | some m => ⟨.ok m, none, cache.trample_warning⟩
  | none =>
    match generateMetadata md5 csv with
    | .error e => ⟨.error e, none, cache.trample_warning⟩
    | .ok m => ⟨.ok m, some m, cache.trample_warning⟩

/-! ### Schema generation
(`src/npd_csviper/base_schema_generator.py`,
`src/csviper/postgresql_schema_generator.py`) -/

/-- State of the output CREATE-TABLE file as
`_should_overwrite_create_table_file` observes it: absent, unreadable
(`IOError`/`OSError` on open/readline), or readable with a given first line. -/
inductive CreateTableFileState where
  | absent
  | unreadable
  | readable (firstLine : String)
deriving DecidableEq

/-- `BaseSchemaGenerator._should_overwrite_create_table_file`.  The source
returns `True` immediately when `overwrite_previous` is set ("If
overwrite_previous is True, always overwrite"); only in the non-forced case is
the first line consulted, and then only the exact value `True` after the
marker's `=` permits overwriting. -/
def should_overwrite_create_table_file (file : CreateTableFileState)
    (overwrite_previous : Bool) : Bool :=
  if overwrite_previous then true
  else
    match file with
    | .absent => true
    | .unreadable => false
    | .readable firstLine =>
      let fl := pyStrip firstLine
      if pyStartsWith fl "-- OverwriteThisOnNextCompile=" then
        let value := pyStrip (pyAfterFirst fl '=')
        if value = "True" then true else false
      else true

/-- Statement splitter used by the import executor and the schema generator:
`[stmt.strip() for stmt in sql.split(';') if stmt.strip()]`. -/
def sql_statements (sql : String) : List String :=
  ((pySplitChar sql ';').map pyStrip).filter (fun s => !s.data.isEmpty)

/-- One column definition line of
`PostgreSQLSchemaGenerator._get_or_create_table_sql`:
`f'    "{col_name}" VARCHAR({varchar_length})'` with
`varchar_length = metadata['max_column_lengths'][col_name] + 1`. -/
def column_definition_line (col_name : String) (max_length : Nat) : String :=
  "    \"" ++ col_name ++ "\" VARCHAR(" ++ natStr (max_length + 1) ++ ")"

/-- The `for col_name in metadata['normalized_column_names']` loop of
`PostgreSQLSchemaGenerator._get_or_create_table_sql` lines 134-137: each
normalized name is looked up in `metadata['max_column_lengths']`; a missing
key is Python's `KeyError`, modelled as `.error` carrying the offending
normalized name. -/
def column_definitions (normalized_column_names : List String)
    (max_column_lengths : List (String × Nat)) : Except String (List String) :=
  normalized_column_names.mapM (fun col =>
    match pyDictGet max_column_lengths col with
    | some w => Except.ok (column_definition_line col w)
    | none => Except.error col)

/-- The CREATE TABLE statement assembled from the column definitions
(lines 131-140 of `postgresql_schema_generator.py`). -/
def create_table_statement (normalized_column_names : List String)
    (max_column_lengths : List (String × Nat)) : Except String String :=
  (column_definitions normalized_column_names max_column_lengths).map
    (fun defs =>
      "CREATE TABLE REPLACE_ME_DB_NAME.REPLACE_ME_TABLE_NAME (\n" ++
        joinWith ",\n" defs ++ "\n);")

/-! ### Import Executor (`src/npd_csviper/import_executor.py`) -/

/-- Python `int(s)` on the pieces produced by `filename.split('_')[0]`:
strip whitespace, optional sign, one or more ASCII digits. -/
def digitsToNat (l : List Char) : Option Nat :=
  if !l.isEmpty && l.all charIsAsciiDigit then
    some (l.foldl (fun acc c => acc * 10 + charDigitVal c) 0)
  else none

/-- Python `int(s)`, returning `none` where Python raises `ValueError`. -/
def pyIntOfStr (s : String) : Option Int :=
  match stripEnds charIsPySpace s.data with
  | '+' :: r => (digitsToNat r).map (fun n => (n : Int))
  | '-' :: r => (digitsToNat r).map (fun n => -(n : Int))
  | r => (digitsToNat r).map (fun n => (n : Int))

/-- `filename.split('_')[0]`: the part before the first underscore. -/
def beforeFirstUnderscore (filename : String) : String :=
  ⟨filename.data.takeWhile (fun c => c != '_')⟩

/-- Numeric order key of a post-import SQL filename
(`int(filename.split('_')[0])`), `none` where the source skips the file. -/
def parse_numeric_order (filename : String) : Option Int :=
  pyIntOfStr (beforeFirstUnderscore filename)

/-- First collection pass of `ImportExecutor.find_post_import_sql_files`:
database-specific `.{db_type}.sql` files with a parseable numeric prefix. -/
def specificPostImportFiles (files : List String) (db_type : String) :
    List (Int × String) :=
  files.filterMap (fun f =>
    if pyEndsWith f ("." ++ db_type ++ ".sql") then
      (parse_numeric_order f).map (fun n => (n, f))
    else none)

/-- Fallback pass of `find_post_import_sql_files`: generic `.sql` files not
belonging to the other database, again with a parseable numeric prefix. -/
def genericPostImportFiles (files : List String) (db_type : String) :
    List (Int × String) :=
  files.filterMap (fun f =>
    if pyEndsWith f ".sql" &&
        !pyEndsWith f ("." ++ (if db_type = "mysql" then "postgresql" else "mysql")
          ++ ".sql") then
      (parse_numeric_order f).map (fun n => (n, f))
    else none)

/-- The collection of `ImportExecutor.find_post_import_sql_files` over the
filenames under `post_import_sql/`: the database-specific files, or — when
there are none at all — the generic fallback. -/
def eligiblePostImportFiles (files : List String) (db_type : String) :
    List (Int × String) :=
  if (specificPostImportFiles files db_type).isEmpty then
    genericPostImportFiles files db_type
  else specificPostImportFiles files db_type

/-- Comparison used by `files_with_order.sort(key=lambda x: x[0])`. -/
def orderKeyLE : (Int × String) → (Int × String) → Prop :=
  fun a b => a.1 ≤ b.1

instance : DecidableRel orderKeyLE :=
  fun a b => inferInstanceAs (Decidable (a.1 ≤ b.1))

instance : IsTotal (Int × String) orderKeyLE :=
  ⟨fun a b => le_total a.1 b.1⟩

instance : IsTrans (Int × String) orderKeyLE :=
  ⟨fun _ _ _ h1 h2 => le_trans h1 h2⟩

/-- `ImportExecutor.find_post_import_sql_files`: collected files sorted by
their numeric prefix, ascending (Python `list.sort` is a stable sort; so is
insertion sort). -/
def find_post_import_sql_files (files : List String) (db_type : String) :
    List (Int × String) :=
  List.insertionSort orderKeyLE (eligiblePostImportFiles files db_type)

/-- The statements of one post-import file the executor actually attempts:
split on `;`, strip, drop empties, and skip statements starting with `--`. -/
def eligible_statements (content : String) : List String :=
  (sql_statements content).filter (fun s => !pyStartsWith s "--")

/-- Log of one `ImportExecutor.execute_post_import_sql` run: every statement
handed to `cursor.execute`, and the subset whose execution raised (each logged
with a dark-red warning and skipped). -/
structure PostImportLog where
  attempted : List String
  failed : List String
deriving DecidableEq

/-- One `cursor.execute(statement)` wrapped in the `try/except` of
`execute_post_import_sql`: a raising statement is logged as failed and
skipped (`continue`); either way the loop moves on. -/
def attemptStatement (execRaises : String → Bool) (log : PostImportLog)
    (stmt : String) : PostImportLog :=
  if execRaises stmt then ⟨log.attempted ++ [stmt], log.failed ++ [stmt]⟩
  else ⟨log.attempted ++ [stmt], log.failed⟩

/-- The inner statement loop of `execute_post_import_sql` for one file. -/
def runFileStatements (execRaises : String → Bool) (log : PostImportLog)
    (content : String) : PostImportLog :=
  (eligible_statements content).foldl (attemptStatement execRaises) log

/-- `ImportExecutor.execute_post_import_sql` over the ordered files, with the
file contents already read (placeholders substituted) and the database's
behaviour abstracted as `execRaises : statement → Bool`.  The `try/except`
around each `cursor.execute` turns a failure into a log entry and a
`continue`; the function itself always returns normally. -/
def execute_post_import_sql (sqlFiles : List (String × String))
    (execRaises : String → Bool) : PostImportLog :=
  sqlFiles.foldl (fun log file => runFileStatements execRaises log file.2) ⟨[], []⟩

/-- Database-visible actions of one import run, in order. -/
inductive DbAction where
  | checkExists
  | warnSkip
  | dropTable
  | createSchema
  | execStmt (statement : String)
  | bulkLoad
  | countRows
  | commitTxn
  | runPostImport
deriving DecidableEq

/-- `ImportExecutor.execute_postgresql_import` after a successful connection:
query `information_schema.tables`; if the table exists and trample is off,
warn and return; otherwise drop it when it exists, `CREATE SCHEMA IF NOT
EXISTS`, run the CREATE TABLE statements, `COPY ... FROM STDIN`, count rows,
commit, and run the post-import SQL. -/
def execute_postgresql_import (table_exists trample : Bool)
    (create_table_sql : String) : List DbAction :=
  .checkExists ::
    (if table_exists && !trample then [.warnSkip]
     else
       (if table_exists then [.dropTable] else []) ++
         [.createSchema] ++
         (sql_statements create_table_sql).map .execStmt ++
         [.bulkLoad, .countRows, .commitTxn, .runPostImport])

/-- `ImportExecutor.execute_mysql_import` after a successful connection: as
the PostgreSQL variant, but with no schema-creation step and `LOAD DATA` as
the bulk load. -/
def execute_mysql_import (table_exists trample : Bool)
    (create_table_sql : String) : List DbAction :=
  .checkExists ::
    (if table_exists && !trample then [.warnSkip]
     else
       (if table_exists then [.dropTable] else []) ++
         (sql_statements create_table_sql).map .execStmt ++
         [.bulkLoad, .countRows, .commitTxn, .runPostImport])

/-! ### Concrete fixtures

Small concrete files and documents, used by the closed instances below. -/

/-- A two-column CSV source. -/
def csvFixA : CsvFile :=
  ⟨"/data/claims.csv", "claims.csv", "claims", 42, ",", "\"", "utf-8",
    ["a", "b"], [["1", "22"]]⟩

/-- A stored document for `csvFixA` whose owner set
`allow_recompile_to_overwrite` to `false`. -/
def mdFixProtected : Metadata :=
  ⟨some false, "claims.csv", "claims", "claims.csv", true, "/old/claims.csv", 42,
    ",", "\"", "utf-8", ["a", "b"], ["a", "b"], [("a", "a"), ("b", "b")],
    [("a", 1), ("b", 2)], 2, some "a,b"⟩

/-- A stored document for `csvFixA` that permits recompilation and whose
header hash matches the live file under the identity digest. -/
def mdFixCached : Metadata :=
  ⟨some true, "claims.csv", "claims", "claims.csv", true, "/old/claims.csv", 42,
    ",", "\"", "utf-8", ["a", "b"], ["a", "b"], [("a", "a"), ("b", "b")],
    [("a", 1), ("b", 2)], 2, some "a,b"⟩

/-- A hand-edited stored document for `csvFixA`: the header hash still
matches, but both originals were mapped to the same normalized name. -/
def mdFixDupMapping : Metadata :=
  ⟨none, "claims.csv", "claims", "claims.csv", true, "/old/claims.csv", 42,
    ",", "\"", "utf-8", ["a", "b"], ["dup", "dup"], [("a", "dup"), ("b", "dup")],
    [("a", 1), ("b", 2)], 2, some "a,b"⟩

/-- A CSV whose only header, `First Name`, normalizes to a different string
(`First_Name`). -/
def csvFixSpace : CsvFile :=
  ⟨"/data/people.csv", "people.csv", "people", 6, ",", "\"", "utf-8",
    ["First Name"], [["abcde"]]⟩

/-- The document regeneration produces for `csvFixA` under the identity
digest (checked by `rfl` below). -/
def mdGenA : Metadata :=
  ⟨some true, "claims.csv", "claims", "claims.csv", true, "/data/claims.csv", 42,
    ",", "\"", "utf-8", ["a", "b"], ["a", "b"], [("a", "a"), ("b", "b")],
    [("a", 1), ("b", 2)], 2, some "a,b"⟩

/-- The document regeneration produces for `csvFixSpace` under the identity
digest (checked by `rfl` below): the width map is keyed by the original
header `First Name` while the normalized name is `First_Name`. -/
def mdGenSpace : Metadata :=
  ⟨some true, "people.csv", "people", "people.csv", true, "/data/people.csv", 6,
    ",", "\"", "utf-8", ["First Name"], ["First_Name"],
    [("First Name", "First_Name")], [("First Name", 5)], 1, some "first name"⟩

/-! ## Claim theorems -/

/-- C1.  When the existing on-disk Metadata Document parses and carries
`allow_recompile_to_overwrite = false`, `fromFileToMetadata` returns that
document unconditionally — also when the caller passes
`overwrite_previous = true` — writes nothing to disk, and emits the trample
warning exactly in the forced case. -/
theorem C1_write_protected_doc_wins (md5 : String → String) (csv : CsvFile)
    (m : Metadata) (overwrite_previous : Bool)
    (hflag : m.allow_recompile_to_overwrite = some false) :
    fromFileToMetadata md5 csv (some (.parsed m)) overwrite_previous =
      ⟨.ok m, none, overwrite_previous⟩ := by
  cases overwrite_previous <;>
    simp [fromFileToMetadata, get_cached_metadata, hflag]

/-- Closed instance of `C1_write_protected_doc_wins`: a concrete protected
document survives a forced (`overwrite_previous = true`) extraction untouched,
with only the warning emitted. -/
theorem C1_write_protected_doc_wins_witness :
    mdFixProtected.allow_recompile_to_overwrite = some false ∧
      fromFileToMetadata (fun s => s) csvFixA (some (.parsed mdFixProtected)) true =
        ⟨.ok mdFixProtected, none, true⟩ :=
  ⟨rfl, C1_write_protected_doc_wins (fun s => s) csvFixA mdFixProtected true rfl⟩

/-- C2, counterexample.  The claim states that an existing CREATE-TABLE file
whose first line is `-- OverwriteThisOnNextCompile=False` is not overwritten
even under a forced rebuild (`_should_overwrite_create_table_file` true only
when forced AND the marker is absent or true).  The source checks
`overwrite_previous` first and returns `True` unconditionally, so at this
concrete input the function answers `true` where the claim requires `false`. -/
theorem C2_counterexample_forced_ignores_marker :
    should_overwrite_create_table_file
        (.readable "-- OverwriteThisOnNextCompile=False") true = true :=
  rfl

/-- C2, amended.  The file-local marker vetoes regeneration only when the
rebuild is not forced: a forced rebuild always overwrites; without forcing,
an absent file or a readable first line lacking the marker is overwritten, a
readable marker line is overwritten exactly when its value is `True`, and an
unreadable file is never overwritten. -/
theorem C2_amended_marker_semantics :
    (∀ file, should_overwrite_create_table_file file true = true) ∧
    (should_overwrite_create_table_file .absent false = true) ∧
    (should_overwrite_create_table_file .unreadable false = false) ∧
    (∀ firstLine,
      pyStartsWith (pyStrip firstLine) "-- OverwriteThisOnNextCompile=" = false →
      should_overwrite_create_table_file (.readable firstLine) false = true) ∧
    (∀ firstLine,
      pyStartsWith (pyStrip firstLine) "-- OverwriteThisOnNextCompile=" = true →
      (should_overwrite_create_table_file (.readable firstLine) false = true ↔
        pyStrip (pyAfterFirst (pyStrip firstLine) '=') = "True")) := by
  refine ⟨fun file => rfl, rfl, rfl, ?_, ?_⟩
  · intro firstLine h
    simp [should_overwrite_create_table_file, h]
  · intro firstLine h
    simp only [should_overwrite_create_table_file, h, if_false, if_true]
    split <;> simp_all

/-- Closed instance of `C2_amended_marker_semantics`: without forcing, the
`False` marker blocks the overwrite, and with forcing it does not. -/
theorem C2_amended_marker_semantics_witness :
    pyStartsWith (pyStrip "-- OverwriteThisOnNextCompile=False")
        "-- OverwriteThisOnNextCompile=" = true ∧
      should_overwrite_create_table_file
        (.readable "-- OverwriteThisOnNextCompile=False") false = false ∧
      should_overwrite_create_table_file
        (.readable "-- OverwriteThisOnNextCompile=False") true = true := by
  refine ⟨rfl, ?_, C2_amended_marker_semantics.1 _⟩
  have h := (C2_amended_marker_semantics.2.2.2.2
    "-- OverwriteThisOnNextCompile=False" rfl)
  revert h
  decide

/-- C3.  A valid cached document (recompile allowed, header hash matching the
live file, no duplicate normalized names) is returned as-is — only
`full_path` refreshed — by a non-forced extraction, and nothing is written to
disk. -/
theorem C3_cached_doc_reused (md5 : String → String) (csv : CsvFile)
    (m : Metadata)
    (hflag : m.allow_recompile_to_overwrite.getD true = true)
    (hhash : m.column_headers_hash = some (md5 (headersHashInput csv.header)))
    (hnodup : hasDupGo (m.column_name_mapping.map Prod.snd) [] = false) :
    fromFileToMetadata md5 csv (some (.parsed m)) false =
      ⟨.ok { m with full_path := csv.path }, none, false⟩ := by
  simp [fromFileToMetadata, get_cached_metadata,
    validate_column_mapping_uniqueness, hflag, hhash, hnodup]

/-- Closed instance of `C3_cached_doc_reused` at a concrete document whose
hash matches the live header under the identity digest. -/
theorem C3_cached_doc_reused_witness :
    mdFixCached.allow_recompile_to_overwrite.getD true = true ∧
      mdFixCached.column_headers_hash =
        some ((fun s => s) (headersHashInput csvFixA.header)) ∧
      hasDupGo (mdFixCached.column_name_mapping.map Prod.snd) [] = false ∧
      fromFileToMetadata (fun s => s) csvFixA (some (.parsed mdFixCached)) false =
        ⟨.ok { mdFixCached with full_path := csvFixA.path }, none, false⟩ :=
  ⟨rfl, rfl, rfl,
    C3_cached_doc_reused (fun s => s) csvFixA mdFixCached rfl rfl rfl⟩

/-- C10.  The `except (json.JSONDecodeError, KeyError, ValueError)` handler of
`_get_cached_metadata` turns both a JSON parse failure and the `ValueError`
of the duplicate-normalized-name validation (hash-matching, hand-edited
document with duplicate mapping values) into `None`, so a non-forced
extraction silently regenerates and rewrites the document instead of
propagating the error. -/
theorem C10_cache_errors_regenerate :
    (∀ (md5 : String → String) (csv : CsvFile) (msg : String) (g : Metadata),
      generateMetadata md5 csv = .ok g →
      fromFileToMetadata md5 csv (some (.parseError msg)) false =
        ⟨.ok g, some g, false⟩) ∧
    (∀ (md5 : String → String) (csv : CsvFile) (m : Metadata) (g : Metadata),
      m.allow_recompile_to_overwrite.getD true = true →
      m.column_headers_hash = some (md5 (headersHashInput csv.header)) →
      hasDupGo (m.column_name_mapping.map Prod.snd) [] = true →
      generateMetadata md5 csv = .ok g →
      fromFileToMetadata md5 csv (some (.parsed m)) false =
        ⟨.ok g, some g, false⟩) := by
  constructor
  · intro md5 csv msg g hg
    simp [fromFileToMetadata, get_cached_metadata, hg]
  · intro md5 csv m g hflag hhash hdup hg
    simp [fromFileToMetadata, get_cached_metadata,
      validate_column_mapping_uniqueness, hflag, hhash, hdup, hg]

/-- Closed instance of `C10_cache_errors_regenerate`: a malformed JSON file
and a duplicate-mapping document both lead to regeneration and a fresh write
for the same concrete CSV. -/
theorem C10_cache_errors_regenerate_witness :
    generateMetadata (fun s => s) csvFixA = .ok mdGenA ∧
      fromFileToMetadata (fun s => s) csvFixA (some (.parseError "bad json")) false =
        ⟨.ok mdGenA, some mdGenA, false⟩ ∧
      hasDupGo (mdFixDupMapping.column_name_mapping.map Prod.snd) [] = true ∧
      fromFileToMetadata (fun s => s) csvFixA (some (.parsed mdFixDupMapping)) false =
        ⟨.ok mdGenA, some mdGenA, false⟩ :=
  ⟨rfl,
    C10_cache_errors_regenerate.1 (fun s => s) csvFixA "bad json" mdGenA rfl,
    rfl,
    C10_cache_errors_regenerate.2 (fun s => s) csvFixA mdFixDupMapping mdGenA
      rfl rfl rfl rfl⟩

/-- Helper for C5: one scan step over a row with the expected field count. -/
theorem scanRows_cons_ok (expected : Nat) (cols : List String)
    (row : List String) (rows : List (List String)) (rn : Nat)
    (acc : List (String × Nat)) (hr : row.length = expected) :
    scanRows expected cols rn (row :: rows) acc =
      scanRows expected cols (rn + 1) rows (updateWidths cols row acc) := by
  simp [scanRows, hr]

/-- Helper for C5: the row scan aborts on the first row whose field count
differs from the header's, reporting `row_number` relative to the starting
counter, and never looks at the rows behind it. -/
theorem scanRows_first_mismatch (expected : Nat) (cols : List String)
    (bad : List String) (rest : List (List String))
    (hbad : bad.length ≠ expected) :
    ∀ (pre : List (List String)) (rn : Nat) (acc : List (String × Nat)),
      (∀ r ∈ pre, r.length = expected) →
      scanRows expected cols rn (pre ++ bad :: rest) acc =
        .error ⟨rn + pre.length + 1, expected, bad.length⟩ := by
  intro pre
  induction pre with
  | nil =>
    intro rn acc _
    simp [scanRows, hbad]
  | cons r pre ih =>
    intro rn acc hpre
    have hr : r.length = expected := hpre r (by simp)
    rw [List.cons_append, scanRows_cons_ok expected cols r _ rn acc hr,
      ih (rn + 1) (updateWidths cols r acc) (fun x hx => hpre x (by simp [hx]))]
    have harith : rn + 1 + pre.length + 1 = rn + (r :: pre).length + 1 := by
      simp [List.length_cons]
      omega
    rw [harith]

/-- C5.  During regeneration's single pass over the data rows, the first row
whose field count differs from the header's aborts the scan with a validation
error carrying the 1-based row number (the header is row 1, the first data
row is row 2) and both counts; the rows after it do not influence the result
(they are not scanned: `rest` is arbitrary on the left and absent on the
right). -/
theorem C5_row_arity_fail_fast (cols : List String) (pre : List (List String))
    (bad : List String) (rest : List (List String))
    (hpre : ∀ r ∈ pre, r.length = cols.length)
    (hbad : bad.length ≠ cols.length) :
    analyze_column_widths cols (pre ++ bad :: rest) =
      .error ⟨pre.length + 2, cols.length, bad.length⟩ := by
  unfold analyze_column_widths
  rw [scanRows_first_mismatch cols.length cols bad rest hbad pre 1 _ hpre]
  have harith : 1 + pre.length + 1 = pre.length + 2 := by omega
  rw [harith]

/-- Closed instance of `C5_row_arity_fail_fast`, the claim's example: a
3-column header followed by a first data row with 2 fields reports row 2,
expected 3, found 2 — with a later (valid) row present but unread. -/
theorem C5_row_arity_fail_fast_witness :
    (∀ r ∈ ([] : List (List String)), r.length = (["a", "b", "c"] : List String).length) ∧
      (["x", "y"] : List String).length ≠ (["a", "b", "c"] : List String).length ∧
      analyze_column_widths ["a", "b", "c"] ([] ++ ["x", "y"] :: [["z", "z", "z"]]) =
        .error ⟨2, 3, 2⟩ :=
  ⟨by simp, by decide,
    C5_row_arity_fail_fast ["a", "b", "c"] [] ["x", "y"] [["z", "z", "z"]]
      (by simp) (by decide)⟩

/-- C6.  The extractor keys `max_column_lengths` by original column names,
but `PostgreSQLSchemaGenerator._get_or_create_table_sql` indexes that map by
the normalized names it emits.  For the one-column CSV `First Name` (width 5)
the claimed `VARCHAR(6)` line is never produced: the lookup of `First_Name`
is a `KeyError`.  The final conjunct shows the `observed maximum + 1` rule
does hold whenever the lookup succeeds (original name equal to normalized). -/
theorem C6_width_map_key_mismatch :
    generateMetadata (fun s => s) csvFixSpace = .ok mdGenSpace ∧
      mdGenSpace.max_column_lengths = [("First Name", 5)] ∧
      mdGenSpace.normalized_column_names = ["First_Name"] ∧
      pyDictGet mdGenSpace.max_column_lengths "First_Name" = none ∧
      column_definitions mdGenSpace.normalized_column_names
        mdGenSpace.max_column_lengths = .error "First_Name" ∧
      column_definitions ["a"] [("a", 5)] = .ok ["    \"a\" VARCHAR(6)"] :=
  ⟨rfl, rfl, rfl, rfl, rfl, rfl⟩

/-- C8.  With the target table present and trample off, both executors warn
and return after the existence check — no drop, no CREATE statement, no bulk
load; with trample on, the drop comes first, then the CREATE statements, then
the bulk load, row count, commit and post-import phase. -/
theorem C8_trample_semantics :
    (∀ create_table_sql : String,
      execute_postgresql_import true false create_table_sql =
        [.checkExists, .warnSkip] ∧
      execute_mysql_import true false create_table_sql =
        [.checkExists, .warnSkip]) ∧
    (∀ (create_table_sql s : String),
      DbAction.dropTable ∉ execute_postgresql_import true false create_table_sql ∧
      DbAction.execStmt s ∉ execute_postgresql_import true false create_table_sql ∧
      DbAction.bulkLoad ∉ execute_postgresql_import true false create_table_sql ∧
      DbAction.dropTable ∉ execute_mysql_import true false create_table_sql ∧
      DbAction.execStmt s ∉ execute_mysql_import true false create_table_sql ∧
      DbAction.bulkLoad ∉ execute_mysql_import true false create_table_sql) ∧
    (∀ create_table_sql : String,
      execute_postgresql_import true true create_table_sql =
        .checkExists :: .dropTable :: .createSchema ::
          ((sql_statements create_table_sql).map .execStmt ++
            [.bulkLoad, .countRows, .commitTxn, .runPostImport]) ∧
      execute_mysql_import true true create_table_sql =
        .checkExists :: .dropTable ::
          ((sql_statements create_table_sql).map .execStmt ++
            [.bulkLoad, .countRows, .commitTxn, .runPostImport])) := by
  refine ⟨fun _ => ⟨rfl, rfl⟩, fun sql s => ?_, fun _ => ⟨rfl, rfl⟩⟩
  refine ⟨?_, ?_, ?_, ?_, ?_, ?_⟩ <;>
    simp [execute_postgresql_import, execute_mysql_import]

/-- Helper for C9: the statement loop appends every statement to the
attempted log and exactly the raising ones to the failure log, whatever the
starting log. -/
theorem foldl_attemptStatement (execRaises : String → Bool) :
    ∀ (stmts : List String) (log : PostImportLog),
      stmts.foldl (attemptStatement execRaises) log =
        ⟨log.attempted ++ stmts, log.failed ++ stmts.filter execRaises⟩ := by
  intro stmts
  induction stmts with
  | nil => intro log; cases log; simp
  | cons s rest ih =>
    intro log
    by_cases h : execRaises s = true <;>
      simp [attemptStatement, h, ih, List.filter_cons]

/-- Helper for C9: the file loop concatenates the eligible statements of all
files, independently of which statements fail. -/
theorem foldl_runFileStatements (execRaises : String → Bool) :
    ∀ (sqlFiles : List (String × String)) (log : PostImportLog),
      sqlFiles.foldl (fun log file => runFileStatements execRaises log file.2) log =
        ⟨log.attempted ++ sqlFiles.flatMap (fun f => eligible_statements f.2),
          log.failed ++
            (sqlFiles.flatMap (fun f => eligible_statements f.2)).filter execRaises⟩ := by
  intro sqlFiles
  induction sqlFiles with
  | nil => intro log; cases log; simp
  | cons f rest ih =>
    intro log
    rw [List.foldl_cons, ih]
    simp only [runFileStatements, foldl_attemptStatement, List.flatMap_cons,
      List.filter_append, List.append_assoc]

/-- C9.  Post-import execution attempts every eligible statement of every
file, in order: a raising statement is logged as failed and skipped, and
neither the rest of its file nor the remaining files are affected — the
attempted list is a pure function of the file contents, and the run returns a
log rather than propagating any error. -/
theorem C9_post_import_failures_skipped :
    ∀ (sqlFiles : List (String × String)) (execRaises : String → Bool),
      (execute_post_import_sql sqlFiles execRaises).attempted =
        sqlFiles.flatMap (fun f => eligible_statements f.2) ∧
      (execute_post_import_sql sqlFiles execRaises).failed =
        (sqlFiles.flatMap (fun f => eligible_statements f.2)).filter execRaises := by
  intro sqlFiles execRaises
  unfold execute_post_import_sql
  rw [foldl_runFileStatements]
  simp

/-- Helper for C7: both collection passes keep only files from the listing,
each carrying exactly the integer parsed from its filename's numeric
prefix. -/
theorem mem_collect_parse (files : List String) (cond : String → Bool)
    (p : Int × String)
    (hp : p ∈ files.filterMap (fun f =>
      if cond f then (parse_numeric_order f).map (fun n => (n, f)) else none)) :
    parse_numeric_order p.2 = some p.1 ∧ p.2 ∈ files := by
  obtain ⟨f, hf, hgf⟩ := List.mem_filterMap.mp hp
  split at hgf
  · obtain ⟨n, hn, hnp⟩ := Option.map_eq_some'.mp hgf
    cases hnp
    exact ⟨hn, hf⟩
  · exact absurd hgf (by simp)

/-- Helper for C7: everything collected by `eligiblePostImportFiles` comes
from the listing with its parsed numeric prefix. -/
theorem mem_eligible_parse (files : List String) (db_type : String)
    (p : Int × String) (hp : p ∈ eligiblePostImportFiles files db_type) :
    parse_numeric_order p.2 = some p.1 ∧ p.2 ∈ files := by
  unfold eligiblePostImportFiles at hp
  split at hp
  · exact mem_collect_parse files _ p hp
  · exact mem_collect_parse files _ p hp

/-- Helper for C7: a permutation of the filesystem listing permutes the
collected files. -/
theorem eligible_perm (db_type : String) {files files' : List String}
    (h : files.Perm files') :
    (eligiblePostImportFiles files db_type).Perm
      (eligiblePostImportFiles files' db_type) := by
  have hs : (specificPostImportFiles files db_type).Perm
      (specificPostImportFiles files' db_type) := h.filterMap _
  unfold eligiblePostImportFiles
  by_cases hnil : specificPostImportFiles files db_type = []
  · have hnil' : specificPostImportFiles files' db_type = [] := by
      rw [hnil] at hs
      exact (List.Perm.nil_eq hs).symm
    rw [if_pos (List.isEmpty_iff.mpr hnil), if_pos (List.isEmpty_iff.mpr hnil')]
    exact h.filterMap _
  · have hnil' : specificPostImportFiles files' db_type ≠ [] := by
      intro hc
      rw [hc] at hs
      exact hnil (List.Perm.eq_nil hs)
    rw [if_neg (by simp [List.isEmpty_iff, hnil]),
      if_neg (by simp [List.isEmpty_iff, hnil'])]
    exact hs

/-- Helper for C7: two sorted outputs built from permuted listings coincide
when the numeric keys are distinct. -/
theorem find_eq_of_perm (db_type : String) {files files' : List String}
    (hperm : files.Perm files')
    (hnodup : ((eligiblePostImportFiles files db_type).map Prod.fst).Nodup) :
    find_post_import_sql_files files db_type =
      find_post_import_sql_files files' db_type := by
  have he : (eligiblePostImportFiles files db_type).Perm
      (eligiblePostImportFiles files' db_type) := eligible_perm db_type hperm
  have hnodup' : ((eligiblePostImportFiles files' db_type).map Prod.fst).Nodup :=
    ((he.map Prod.fst).nodup_iff).mp hnodup
  have hchain : (find_post_import_sql_files files db_type).Perm
      (find_post_import_sql_files files' db_type) :=
    ((List.perm_insertionSort orderKeyLE _).trans he).trans
      (List.perm_insertionSort orderKeyLE _).symm
  have hstrict : ∀ (l : List String),
      ((eligiblePostImportFiles l db_type).map Prod.fst).Nodup →
      List.Sorted (fun a b : Int × String => a.1 < b.1)
        (find_post_import_sql_files l db_type) := by
    intro l hnd
    have hsorted : List.Sorted orderKeyLE (find_post_import_sql_files l db_type) :=
      List.sorted_insertionSort orderKeyLE _
    have hnd' : ((find_post_import_sql_files l db_type).map Prod.fst).Nodup :=
      (((List.perm_insertionSort orderKeyLE _).map Prod.fst).nodup_iff).mpr hnd
    have hne : List.Pairwise (fun a b : Int × String => a.1 ≠ b.1)
        (find_post_import_sql_files l db_type) :=
      List.pairwise_map.mp hnd'
    exact (hsorted.and hne).imp (fun h => lt_of_le_of_ne h.1 h.2)
  haveI : IsAntisymm (Int × String) (fun a b : Int × String => a.1 < b.1) :=
    ⟨fun a b h1 h2 => absurd (lt_trans h1 h2) (lt_irrefl _)⟩
  exact List.eq_of_perm_of_sorted hchain (hstrict files hnodup) (hstrict files' hnodup')

/-- C7.  Post-import SQL files run in ascending order of the integer parsed
from the filename's numeric prefix: the discovered list is sorted by that
key; for the example set `01_index` / `05_validate` / `10_stats` every
filesystem listing order yields exactly the 01, 05, 10 sequence; and a file
whose name has no parseable numeric prefix is never scheduled. -/
theorem C7_post_import_numeric_order :
    (∀ (files : List String) (db_type : String),
      List.Sorted orderKeyLE (find_post_import_sql_files files db_type)) ∧
    (∀ files : List String,
      files.Perm ["01_index.postgresql.sql", "05_validate.postgresql.sql",
        "10_stats.postgresql.sql"] →
      find_post_import_sql_files files "postgresql" =
        [((1 : Int), "01_index.postgresql.sql"),
          ((5 : Int), "05_validate.postgresql.sql"),
          ((10 : Int), "10_stats.postgresql.sql")]) ∧
    (∀ (files : List String) (db_type f : String) (n : Int),
      parse_numeric_order f = none →
      (n, f) ∉ find_post_import_sql_files files db_type) := by
  refine ⟨fun files db_type => List.sorted_insertionSort orderKeyLE _, ?_, ?_⟩
  · intro files hperm
    have hnodup : ((eligiblePostImportFiles files "postgresql").map Prod.fst).Nodup := by
      have he := eligible_perm "postgresql" hperm
      exact ((he.map Prod.fst).nodup_iff).mpr (by decide)
    rw [find_eq_of_perm "postgresql" hperm hnodup]
    decide
  · intro files db_type f n hnone hmem
    have hel : (n, f) ∈ eligiblePostImportFiles files db_type :=
      ((List.perm_insertionSort orderKeyLE _).mem_iff).mp hmem
    have := (mem_eligible_parse files db_type (n, f) hel).1
    rw [hnone] at this
    exact Option.noConfusion this

/-- Closed instance of `C7_post_import_numeric_order`: a shuffled listing
(with a `README.md` and an unprefixed SQL file mixed in has no effect on part
three) still executes 01, 05, 10 in numeric order, and `stats.postgresql.sql`
is skipped. -/
theorem C7_post_import_numeric_order_witness :
    (["10_stats.postgresql.sql", "01_index.postgresql.sql",
        "05_validate.postgresql.sql"] : List String).Perm
      ["01_index.postgresql.sql", "05_validate.postgresql.sql",
        "10_stats.postgresql.sql"] ∧
    find_post_import_sql_files
        ["10_stats.postgresql.sql", "01_index.postgresql.sql",
          "05_validate.postgresql.sql"] "postgresql" =
      [((1 : Int), "01_index.postgresql.sql"),
        ((5 : Int), "05_validate.postgresql.sql"),
        ((10 : Int), "10_stats.postgresql.sql")] ∧
    parse_numeric_order "stats.postgresql.sql" = none ∧
    ((7 : Int), "stats.postgresql.sql") ∉
      find_post_import_sql_files ["stats.postgresql.sql"] "postgresql" := by
  have hperm : (["10_stats.postgresql.sql", "01_index.postgresql.sql",
      "05_validate.postgresql.sql"] : List String).Perm
      ["01_index.postgresql.sql", "05_validate.postgresql.sql",
        "10_stats.postgresql.sql"] := by decide
  exact ⟨hperm, C7_post_import_numeric_order.2.1 _ hperm, rfl,
    C7_post_import_numeric_order.2.2 _ "postgresql" _ 7 rfl⟩

/-! ### Decimal rendering lemmas (towards C4) -/

/-- Data of a literally-built string. -/
theorem strMk_data (l : List Char) : (⟨l⟩ : String).data = l :=
  rfl

/-- Length of a literally-built string. -/
theorem strMk_length (l : List Char) : (⟨l⟩ : String).length = l.length :=
  rfl

/-- Strings built from equal-looking lists are equal exactly when the lists
are. -/
theorem strMk_inj {l1 l2 : List Char} (h : (⟨l1⟩ : String) = ⟨l2⟩) : l1 = l2 :=
  congrArg String.data h

/-- Digit characters decode back to their value. -/
theorem digitToChar_val (d : Nat) (h : d < 10) :
    charDigitVal (digitToChar d) = d := by
  interval_cases d <;> rfl

/-- The fuel of `digitsRevGo` is immaterial once it dominates the argument:
the digits evaluate back to the number. -/
theorem digitsRevGo_val : ∀ fuel n : Nat, n ≤ fuel →
    digitsVal (digitsRevGo fuel n) = n := by
  intro fuel
  induction fuel with
  | zero =>
    intro n hn
    interval_cases n
    rfl
  | succ fuel ih =>
    intro n hn
    match n with
    | 0 => rfl
    | m + 1 =>
      have h1 : (m + 1) / 10 < m + 1 := Nat.div_lt_self (Nat.succ_pos m) (by norm_num)
      have h2 : (m + 1) / 10 ≤ fuel := by omega
      have h3 : (m + 1) % 10 < 10 := Nat.mod_lt _ (by norm_num)
      show digitsVal (digitToChar ((m + 1) % 10) :: digitsRevGo fuel ((m + 1) / 10)) = m + 1
      simp only [digitsVal, ih _ h2, digitToChar_val _ h3]
      omega

/-- Decimal rendering is injective. -/
theorem natDigits_injective {m n : Nat} (h : natDigits m = natDigits n) :
    m = n := by
  unfold natDigits at h
  by_cases hm : m = 0 <;> by_cases hn : n = 0
  · omega
  · rw [if_pos hm, if_neg hn] at h
    have hyr : digitsRevGo n n = ['0'] := by
      have := congrArg List.reverse h
      simpa using this.symm
    have hv := digitsRevGo_val n n le_rfl
    rw [hyr] at hv
    simp [digitsVal, charDigitVal] at hv
    omega
  · rw [if_neg hm, if_pos hn] at h
    have hyr : digitsRevGo m m = ['0'] := by
      have := congrArg List.reverse h
      simpa using this
    have hv := digitsRevGo_val m m le_rfl
    rw [hyr] at hv
    simp [digitsVal, charDigitVal] at hv
    omega
  · rw [if_neg hm, if_neg hn] at h
    have hrev : digitsRevGo m m = digitsRevGo n n := by
      have := congrArg List.reverse h
      simpa using this
    have hv1 := digitsRevGo_val m m le_rfl
    have hv2 := digitsRevGo_val n n le_rfl
    rw [hrev, hv2] at hv1
    exact hv1.symm

/-- At most `d` digits below `10 ^ d`. -/
theorem digitsRevGo_length_le : ∀ fuel n d : Nat, n ≤ fuel → n < 10 ^ d →
    (digitsRevGo fuel n).length ≤ d := by
  intro fuel
  induction fuel with
  | zero =>
    intro n d hn _
    interval_cases n
    simp [digitsRevGo]
  | succ fuel ih =>
    intro n d hn hd
    match n with
    | 0 => simp [digitsRevGo]
    | m + 1 =>
      cases d with
      | zero =>
        simp only [pow_zero] at hd
        omega
      | succ d =>
        have h1 : (m + 1) / 10 < m + 1 := Nat.div_lt_self (Nat.succ_pos m) (by norm_num)
        have h2 : (m + 1) / 10 ≤ fuel := by omega
        have h3 : (m + 1) / 10 < 10 ^ d := by
          rw [Nat.div_lt_iff_lt_mul (by norm_num : (0 : Nat) < 10)]
          calc m + 1 < 10 ^ (d + 1) := hd
          _ = 10 ^ d * 10 := by ring
        show (digitToChar ((m + 1) % 10) :: digitsRevGo fuel ((m + 1) / 10)).length ≤ d + 1
        simp only [List.length_cons]
        exact Nat.succ_le_succ (ih _ d h2 h3)

/-- At least `k + 1` digits from `10 ^ k` on. -/
theorem digitsRevGo_length_ge : ∀ fuel n k : Nat, n ≤ fuel → 10 ^ k ≤ n →
    k + 1 ≤ (digitsRevGo fuel n).length := by
  intro fuel
  induction fuel with
  | zero =>
    intro n k hn hk
    have := pow_pos (by norm_num : (0 : Nat) < 10) k
    omega
  | succ fuel ih =>
    intro n k hn hk
    match n with
    | 0 =>
      have := pow_pos (by norm_num : (0 : Nat) < 10) k
      omega
    | m + 1 =>
      cases k with
      | zero =>
        show 1 ≤ (digitToChar ((m + 1) % 10) :: digitsRevGo fuel ((m + 1) / 10)).length
        simp
      | succ k =>
        have h1 : (m + 1) / 10 < m + 1 := Nat.div_lt_self (Nat.succ_pos m) (by norm_num)
        have h2 : (m + 1) / 10 ≤ fuel := by omega
        have h3 : 10 ^ k ≤ (m + 1) / 10 := by
          rw [Nat.le_div_iff_mul_le (by norm_num : (0 : Nat) < 10)]
          calc 10 ^ k * 10 = 10 ^ (k + 1) := by ring
          _ ≤ m + 1 := hk
        have := ih _ k h2 h3
        show k + 1 + 1 ≤ (digitToChar ((m + 1) % 10) :: digitsRevGo fuel ((m + 1) / 10)).length
        simp only [List.length_cons]
        omega

/-- Digit-count bound for `natDigits`. -/
theorem natDigits_length_le (n d : Nat) (hd : 1 ≤ d) (hn : n < 10 ^ d) :
    (natDigits n).length ≤ d := by
  unfold natDigits
  split
  · simpa
  · rw [List.length_reverse]
    exact digitsRevGo_length_le n n d le_rfl hn

/-- Exact digit count within a decade. -/
theorem natDigits_length_eq (n k : Nat) (h1 : 10 ^ k ≤ n) (h2 : n < 10 ^ (k + 1)) :
    (natDigits n).length = k + 1 := by
  have hn0 : n ≠ 0 := by
    have := pow_pos (by norm_num : (0 : Nat) < 10) k
    omega
  unfold natDigits
  rw [if_neg hn0, List.length_reverse]
  have hle := digitsRevGo_length_le n n (k + 1) le_rfl h2
  have hge := digitsRevGo_length_ge n n k le_rfl h1
  omega

/-- From four digits on, the `03d` padding is the identity. -/
theorem pad3Digits_eq_natDigits (n : Nat) (h : ¬(natDigits n).length < 3) :
    pad3Digits n = natDigits n := by
  simp only [pad3Digits]
  rw [if_neg h]

/-- Length of the padded counter. -/
theorem pad3Digits_length (n : Nat) :
    (pad3Digits n).length = max 3 (natDigits n).length := by
  simp only [pad3Digits]
  split
  · simp only [List.length_append, List.length_replicate]
    omega
  · omega

/-! ### Numbered-candidate lemmas (towards C4) -/

/-- A slice `l[:k]` is a `take`. -/
theorem pySliceTake_eq_take (l : List Char) (k : Int) :
    ∃ m, pySliceTake l k = l.take m := by
  unfold pySliceTake
  split
  · exact ⟨_, rfl⟩
  · exact ⟨_, rfl⟩

/-- Length bound for a non-negative slice. -/
theorem pySliceTake_length_le (l : List Char) (k : Int) (hk : 0 ≤ k) :
    (pySliceTake l k).length ≤ k.toNat := by
  unfold pySliceTake
  rw [if_pos hk]
  simp [List.length_take]

/-- Within one decade of counters (four or more digits), distinct counters
yield distinct numbered candidates: the suffix length is uniform, so the
truncated bases coincide and the suffixes must differ. -/
theorem numberedCandidate_inj_group (base : String) (k : Nat) (hk : 3 ≤ k)
    (c1 c2 : Nat) (h1a : 10 ^ k ≤ c1) (h1b : c1 < 10 ^ (k + 1))
    (h2a : 10 ^ k ≤ c2) (h2b : c2 < 10 ^ (k + 1))
    (heq : numberedCandidate base c1 = numberedCandidate base c2) : c1 = c2 := by
  have hl1 : (natDigits c1).length = k + 1 := natDigits_length_eq c1 k h1a h1b
  have hl2 : (natDigits c2).length = k + 1 := natDigits_length_eq c2 k h2a h2b
  have hp1 : pad3Digits c1 = natDigits c1 := pad3Digits_eq_natDigits c1 (by omega)
  have hp2 : pad3Digits c2 = natDigits c2 := pad3Digits_eq_natDigits c2 (by omega)
  simp only [numberedCandidate, hp1, hp2, List.length_cons, hl1, hl2] at heq
  apply natDigits_injective
  by_cases hcond : 60 < base.data.length + (k + 1 + 1)
  · rw [if_pos hcond, if_pos hcond] at heq
    have := List.append_cancel_left (strMk_inj heq)
    exact (List.cons.injEq _ _ _ _).mp this |>.2
  · rw [if_neg hcond, if_neg hcond] at heq
    have := List.append_cancel_left (strMk_inj heq)
    exact (List.cons.injEq _ _ _ _).mp this |>.2

/-- Numbered candidates stay within 60 characters as long as the counter has
at most 59 digits. -/
theorem numberedCandidate_length_le (base : String) (c k : Nat) (hk : 3 ≤ k)
    (hk58 : k ≤ 58) (hc : c < 10 ^ (k + 1)) :
    (numberedCandidate base c).length ≤ 60 := by
  have hdl : (natDigits c).length ≤ k + 1 := natDigits_length_le c (k + 1) (by omega) hc
  have hsfx : ('_' :: pad3Digits c).length ≤ k + 2 := by
    simp only [List.length_cons, pad3Digits_length]
    omega
  have hsfx60 : ('_' :: pad3Digits c).length ≤ 60 := by omega
  simp only [numberedCandidate]
  split
  · rw [strMk_length, List.length_append]
    have hnn : (0 : Int) ≤ 60 - (('_' :: pad3Digits c).length : Int) := by
      omega
    have := pySliceTake_length_le base.data
      (60 - (('_' :: pad3Digits c).length : Int)) hnn
    have htn : ((60 : Int) - (('_' :: pad3Digits c).length : Int)).toNat =
        60 - ('_' :: pad3Digits c).length := by
      omega
    omega
  · rw [strMk_length, List.length_append]
    omega

/-- The head of a numbered candidate is either the base's first character or
an underscore; in particular it is never a digit when the base's is not. -/
theorem numberedCandidate_head_not_digit (base : String) (c : Nat)
    (hh : charIsAsciiDigit (base.data.headD ' ') = false) :
    charIsAsciiDigit ((numberedCandidate base c).data.headD ' ') = false := by
  have hunder : charIsAsciiDigit '_' = false := by decide
  simp only [numberedCandidate]
  split
  · rw [strMk_data]
    obtain ⟨m, hm⟩ := pySliceTake_eq_take base.data
      (60 - (('_' :: pad3Digits c).length : Int))
    rw [hm]
    cases m with
    | zero => simpa using hunder
    | succ m =>
      cases hbd : base.data with
      | nil => simpa [hbd] using hunder
      | cons x t =>
        rw [hbd] at hh
        simpa using hh
  · rw [strMk_data]
    cases hbd : base.data with
    | nil => simpa using hunder
    | cons x t =>
      rw [hbd] at hh
      simpa using hh

/-! ### Fresh-name search lemmas (towards C4) -/

/-- Pigeonhole: some counter below `10 ^ (|used| + 4)` yields a candidate not
yet in `used` — `used.length + 1` counters in one decade give that many
distinct candidates. -/
theorem exists_fresh_candidate (used : List String) (base : String) :
    ∃ c, 2 ≤ c ∧ c < 10 ^ (used.length + 4) ∧
      numberedCandidate base c ∉ used := by
  by_contra hcon
  push_neg at hcon
  have hnlt : used.length < 10 ^ (used.length + 3) := by
    calc used.length < 10 ^ used.length := Nat.lt_pow_self (by norm_num) _
    _ ≤ 10 ^ (used.length + 3) := Nat.pow_le_pow_right (by norm_num) (by omega)
  have hk10 : (1000 : Nat) ≤ 10 ^ (used.length + 3) := by
    calc (1000 : Nat) = 10 ^ 3 := by norm_num
    _ ≤ 10 ^ (used.length + 3) := Nat.pow_le_pow_right (by norm_num) (by omega)
  have hpows : 10 ^ (used.length + 4) = 10 ^ (used.length + 3) * 10 := by
    rw [pow_succ]
  have hinj : Set.InjOn (numberedCandidate base)
      ↑(Finset.Icc (10 ^ (used.length + 3)) (10 ^ (used.length + 3) + used.length)) := by
    intro c1 hc1 c2 hc2 heq
    simp only [Finset.coe_Icc, Set.mem_Icc] at hc1 hc2
    refine numberedCandidate_inj_group base (used.length + 3) (by omega) c1 c2
      hc1.1 (by omega) hc2.1 (by omega) heq
  have hmaps : ∀ c ∈ Finset.Icc (10 ^ (used.length + 3))
      (10 ^ (used.length + 3) + used.length),
      numberedCandidate base c ∈ used.toFinset := by
    intro c hc
    simp only [Finset.mem_Icc] at hc
    exact List.mem_toFinset.mpr (hcon c (by omega) (by omega))
  have hcard := Finset.card_le_card_of_injOn (numberedCandidate base) hmaps hinj
  rw [Nat.card_Icc] at hcard
  have hcard2 : used.toFinset.card ≤ used.length := List.toFinset_card_le used
  omega

/-- The fuelled search returns the candidate of the least fresh counter in
its window, provided the window contains a fresh one. -/
theorem findFreshGo_spec (used : List String) (base : String) :
    ∀ fuel start : Nat,
      (∃ c, start ≤ c ∧ c < start + fuel + 1 ∧ numberedCandidate base c ∉ used) →
      ∃ c, start ≤ c ∧ c < start + fuel + 1 ∧
        findFreshGo used base fuel start = numberedCandidate base c ∧
        numberedCandidate base c ∉ used ∧
        (∀ c', start ≤ c' → c' < c → numberedCandidate base c' ∈ used) := by
  intro fuel
  induction fuel with
  | zero =>
    intro start h
    obtain ⟨c, h1, h2, h3⟩ := h
    have hc : c = start := by omega
    subst hc
    exact ⟨c, le_rfl, by omega, rfl, h3, fun c' h1' h2' => by omega⟩
  | succ fuel ih =>
    intro start h
    by_cases hmem : numberedCandidate base start ∈ used
    · have h' : ∃ c, start + 1 ≤ c ∧ c < start + 1 + fuel + 1 ∧
          numberedCandidate base c ∉ used := by
        obtain ⟨c, h1, h2, h3⟩ := h
        have hne : c ≠ start := by
          intro hc
          subst hc
          exact h3 hmem
        exact ⟨c, by omega, by omega, h3⟩
      obtain ⟨c, h1, h2, h3, h4, h5⟩ := ih (start + 1) h'
      refine ⟨c, by omega, by omega, ?_, h4, ?_⟩
      · simpa [findFreshGo, hmem] using h3
      · intro c' hc1 hc2
        by_cases hc' : c' = start
        · subst hc'
          exact hmem
        · exact h5 c' (by omega) hc2
    · exact ⟨start, le_rfl, by omega, by simp [findFreshGo, hmem], hmem,
        fun c' h1' h2' => by omega⟩

/-- `findFreshNumbered` is the candidate of the least fresh counter `≥ 2`:
it is not yet used, and every smaller counter's candidate is. -/
theorem findFreshNumbered_spec (used : List String) (base : String) :
    ∃ c, 2 ≤ c ∧
      findFreshNumbered used base = numberedCandidate base c ∧
      numberedCandidate base c ∉ used ∧
      (∀ c', 2 ≤ c' → c' < c → numberedCandidate base c' ∈ used) := by
  obtain ⟨c0, hc1, hc2, hc3⟩ := exists_fresh_candidate used base
  obtain ⟨c, h1, _, h3, h4, h5⟩ := findFreshGo_spec used base
    (10 ^ (used.length + 4)) 2 ⟨c0, hc1, by omega, hc3⟩
  exact ⟨c, h1, h3, h4, fun c' hc1' hc2' => h5 c' hc1' hc2'⟩

/-- The least fresh counter stays below `10 ^ (k + 1)` while `used` has fewer
than `9 * 10 ^ k` entries: otherwise the whole decade
`[10 ^ k, 10 ^ (k + 1))` of distinct candidates would sit inside `used`. -/
theorem fresh_counter_bound (used : List String) (base : String) (k c : Nat)
    (hk : 3 ≤ k) (hn : used.length < 9 * 10 ^ k)
    (hleast : ∀ c', 2 ≤ c' → c' < c → numberedCandidate base c' ∈ used)
    (_hfresh : numberedCandidate base c ∉ used) : c < 10 ^ (k + 1) := by
  by_contra hc
  push_neg at hc
  have hk10 : (1000 : Nat) ≤ 10 ^ k := by
    calc (1000 : Nat) = 10 ^ 3 := by norm_num
    _ ≤ 10 ^ k := Nat.pow_le_pow_right (by norm_num) hk
  have hpows : 10 ^ (k + 1) = 10 ^ k * 10 := by
    rw [pow_succ]
  have hinj : Set.InjOn (numberedCandidate base)
      ↑(Finset.Ico (10 ^ k) (10 ^ (k + 1))) := by
    intro c1 hc1 c2 hc2 heq
    simp only [Finset.coe_Ico, Set.mem_Ico] at hc1 hc2
    exact numberedCandidate_inj_group base k hk c1 c2 hc1.1 hc1.2 hc2.1 hc2.2 heq
  have hmaps : ∀ x ∈ Finset.Ico (10 ^ k) (10 ^ (k + 1)),
      numberedCandidate base x ∈ used.toFinset := by
    intro x hx
    simp only [Finset.mem_Ico] at hx
    exact List.mem_toFinset.mpr (hleast x (by omega) (by omega))
  have hcard := Finset.card_le_card_of_injOn (numberedCandidate base) hmaps hinj
  rw [Nat.card_Ico] at hcard
  have hcard2 : used.toFinset.card ≤ used.length := List.toFinset_card_le used
  omega

/-! ### Renamer-output lemmas (towards C4) -/

/-- The defaulted intermediate of the renamer is never empty. -/
theorem defaultIfEmpty_ne_nil (l : List Char) : defaultIfEmpty l ≠ [] := by
  unfold defaultIfEmpty
  split
  · decide
  · assumption

/-- The digit guard keeps the list non-empty. -/
theorem guardLeadingDigit_ne_nil (l : List Char) (h : l ≠ []) :
    guardLeadingDigit l ≠ [] := by
  unfold guardLeadingDigit
  split
  · simp
  · exact h

/-- The digit guard's head is not a digit. -/
theorem guardLeadingDigit_head (l : List Char) :
    charIsAsciiDigit ((guardLeadingDigit l).headD ' ') = false := by
  unfold guardLeadingDigit
  split
  · exact (show charIsAsciiDigit '_' = false by decide)
  · rename_i h
    exact Bool.not_eq_true _ ▸ (Bool.eq_false_iff.mpr h)

/-- Truncation keeps a non-empty list non-empty (positive count). -/
theorem take_ne_nil (l : List Char) (n : Nat) (hn : 0 < n) (h : l ≠ []) :
    l.take n ≠ [] := by
  cases l with
  | nil => exact absurd rfl h
  | cons x t =>
    cases n with
    | zero => omega
    | succ n => simp

/-- Truncation preserves the head (positive count). -/
theorem take_headD (l : List Char) (n : Nat) (d : Char) (hn : 0 < n) :
    (l.take n).headD d = l.headD d := by
  cases l with
  | nil => simp
  | cons x t =>
    cases n with
    | zero => omega
    | succ n => rfl

/-- The renamer core is never empty. -/
theorem renamerCore_ne_nil (l : List Char) : renamerCore l ≠ [] := by
  unfold renamerCore
  exact take_ne_nil _ 60 (by norm_num)
    (guardLeadingDigit_ne_nil _ (defaultIfEmpty_ne_nil _))

/-- The renamer core never starts with a digit. -/
theorem renamerCore_head (l : List Char) :
    charIsAsciiDigit ((renamerCore l).headD ' ') = false := by
  unfold renamerCore
  rw [take_headD _ 60 ' ' (by norm_num)]
  exact guardLeadingDigit_head _

/-- The renamer core is at most 60 characters. -/
theorem renamerCore_length_le (l : List Char) : (renamerCore l).length ≤ 60 := by
  unfold renamerCore
  simp [List.length_take]

/-- `safe_column_renamer` never returns the empty string. -/
theorem safe_column_renamer_ne_nil (s : String) :
    (safe_column_renamer s).data ≠ [] := by
  unfold safe_column_renamer
  split
  · decide
  · exact renamerCore_ne_nil _

/-- `safe_column_renamer` never returns a name starting with a digit. -/
theorem safe_column_renamer_head (s : String) :
    charIsAsciiDigit ((safe_column_renamer s).data.headD ' ') = false := by
  unfold safe_column_renamer
  split
  · decide
  · exact renamerCore_head _

/-- `safe_column_renamer` truncates to at most 60 characters. -/
theorem safe_column_renamer_length_le (s : String) :
    (safe_column_renamer s).length ≤ 60 := by
  unfold safe_column_renamer
  split
  · decide
  · exact renamerCore_length_le _

/-! ### Rename-loop lemmas and C4 -/

/-- Each chosen name is fresh with respect to the running set. -/
theorem chooseName_not_mem (used : List String) (name : String) :
    chooseName used name ∉ used := by
  unfold chooseName
  split
  · obtain ⟨c, _, heq, hfresh, _⟩ := findFreshNumbered_spec used (safe_column_renamer name)
    rw [heq]
    exact hfresh
  · assumption

/-- Each chosen name avoids a leading digit. -/
theorem chooseName_head (used : List String) (name : String) :
    charIsAsciiDigit ((chooseName used name).data.headD ' ') = false := by
  unfold chooseName
  split
  · obtain ⟨c, _, heq, _, _⟩ := findFreshNumbered_spec used (safe_column_renamer name)
    rw [heq]
    exact numberedCandidate_head_not_digit _ _ (safe_column_renamer_head name)
  · exact safe_column_renamer_head name

/-- Each chosen name fits in 60 characters while the running set is within
the (astronomical) counter budget. -/
theorem chooseName_length_le (used : List String) (name : String)
    (hn : used.length < 9 * 10 ^ 56) :
    (chooseName used name).length ≤ 60 := by
  unfold chooseName
  split
  · obtain ⟨c, hc2, heq, hfresh, hleast⟩ :=
      findFreshNumbered_spec used (safe_column_renamer name)
    rw [heq]
    have hbound : c < 10 ^ (56 + 1) :=
      fresh_counter_bound used (safe_column_renamer name) 56 c (by norm_num)
        hn hleast hfresh
    exact numberedCandidate_length_le _ c 56 (by norm_num) (by norm_num) hbound
  · exact safe_column_renamer_length_le name

/-- The loop emits one name per column. -/
theorem renameGo_length : ∀ (cols used : List String),
    (renameGo used cols).length = cols.length := by
  intro cols
  induction cols with
  | nil => intro used; rfl
  | cons name rest ih =>
    intro used
    simp [renameGo, ih]

/-- Nothing the loop emits was in the set it started from. -/
theorem renameGo_not_mem_used : ∀ (cols used : List String) (s : String),
    s ∈ renameGo used cols → s ∉ used := by
  intro cols
  induction cols with
  | nil =>
    intro used s hs
    simp [renameGo] at hs
  | cons name rest ih =>
    intro used s hs
    rcases List.mem_cons.mp hs with hs | hs
    · subst hs
      exact chooseName_not_mem used name
    · intro hmem
      exact ih _ s hs (List.mem_cons_of_mem _ hmem)

/-- The loop's output has no duplicates. -/
theorem renameGo_nodup : ∀ (cols used : List String),
    (renameGo used cols).Nodup := by
  intro cols
  induction cols with
  | nil => intro used; simp [renameGo]
  | cons name rest ih =>
    intro used
    refine List.nodup_cons.mpr ⟨?_, ih _⟩
    intro hmem
    exact renameGo_not_mem_used rest _ _ hmem (List.mem_cons_self _ _)

/-- No emitted name starts with a digit. -/
theorem renameGo_head : ∀ (cols used : List String) (s : String),
    s ∈ renameGo used cols → charIsAsciiDigit (s.data.headD ' ') = false := by
  intro cols
  induction cols with
  | nil =>
    intro used s hs
    simp [renameGo] at hs
  | cons name rest ih =>
    intro used s hs
    rcases List.mem_cons.mp hs with hs | hs
    · subst hs
      exact chooseName_head used name
    · exact ih _ s hs

/-- Every emitted name fits in 60 characters while the total work stays
within the counter budget. -/
theorem renameGo_length_le : ∀ (cols used : List String),
    used.length + cols.length ≤ 10 ^ 56 →
    ∀ s ∈ renameGo used cols, s.length ≤ 60 := by
  intro cols
  induction cols with
  | nil =>
    intro used _ s hs
    simp [renameGo] at hs
  | cons name rest ih =>
    intro used hsum s hs
    rcases List.mem_cons.mp hs with hs | hs
    · subst hs
      refine chooseName_length_le used name ?_
      have h9 : (10 : Nat) ^ 56 ≤ 9 * 10 ^ 56 := by
        calc (10 : Nat) ^ 56 = 1 * 10 ^ 56 := (one_mul _).symm
        _ ≤ 9 * 10 ^ 56 := Nat.mul_le_mul_right _ (by norm_num)
      simp only [List.length_cons] at hsum
      omega
    · refine ih (chooseName used name :: used) ?_ s hs
      simp only [List.length_cons] at hsum ⊢
      omega

/-- C4.  `rename_column_list` returns a list of the same length in the same
order (one output per input, emitted positionally); the outputs are pairwise
distinct; none starts with a digit; and — for every input that fits the
decimal counter budget, far beyond any physical CSV — every output is at most
60 characters.  The function is a pure Lean function of its argument: no
side effects and no I/O exist in the model, matching the source's lack of
both. -/
theorem C4_rename_contract (column_names : List String) :
    (rename_column_list column_names).length = column_names.length ∧
    (rename_column_list column_names).Nodup ∧
    (∀ s ∈ rename_column_list column_names,
      charIsAsciiDigit (s.data.headD ' ') = false) ∧
    (column_names.length ≤ 10 ^ 56 →
      ∀ s ∈ rename_column_list column_names, s.length ≤ 60) :=
  ⟨renameGo_length column_names [], renameGo_nodup column_names [],
    fun s hs => renameGo_head column_names [] s hs,
    fun hlen s hs => renameGo_length_le column_names [] (by simpa using hlen) s hs⟩

/-- Closed instance of `C4_rename_contract` at the spec's worked example
(`Name`, `Name`, `2ID`): budget satisfied, all bounds realized, duplicates
resolved. -/
theorem C4_rename_contract_witness :
    (["Name", "Name", "2ID"] : List String).length ≤ 10 ^ 56 ∧
      (rename_column_list ["Name", "Name", "2ID"]).length = 3 ∧
      (rename_column_list ["Name", "Name", "2ID"]).Nodup ∧
      (∀ s ∈ rename_column_list ["Name", "Name", "2ID"], s.length ≤ 60) := by
  have hbudget : (["Name", "Name", "2ID"] : List String).length ≤ 10 ^ 56 := by
    calc (["Name", "Name", "2ID"] : List String).length = 3 := rfl
    _ ≤ 10 ^ 56 := Nat.le_of_lt (by
      calc (3 : Nat) < 10 ^ 1 := by norm_num
      _ ≤ 10 ^ 56 := Nat.pow_le_pow_right (by norm_num) (by norm_num))
  exact ⟨hbudget, (C4_rename_contract _).1, (C4_rename_contract _).2.1,
    (C4_rename_contract _).2.2.2 hbudget⟩

end CsViper
